import Mathlib

/-!
Shallow embedding of src/inog-demo/mininet_faucet_demo.py.

The script has two parts: a static topology declaration (class FaucetTopo,
lines 43-71) and a provisioning plus teardown sequence (function run,
lines 74-162).  The topology is embedded as literal declaration lists that
mirror the addSwitch, addNode, addHost and addLink calls.  The provisioning
sequence is embedded as a trace of externally visible events, parameterised
by the value of the EXT_INT constant and by how many failed iterations each
of the five polling loops performs before its exit condition becomes true.
The exit conditions of the polling loops are embedded as substring tests on
command output, exactly as the Python in operator tests them, and the
address-extraction pipeline of the host DHCP waits
(ip addr show eth0 piped into grep -o 10.0.0.[0-9]) is embedded by a
character-level model of the fixed-length grep pattern.
-/

/-- Line 40: the module-level constant naming the external physical
interface that is bridged into the NAT node. -/
def EXT_INT : String := "enp0s9"

/-- An addSwitch declaration (lines 51-52): name, protocols option and
dpid option as passed in the source. -/
structure SwitchDecl where
  name : String
  protocols : String
  dpid : String
deriving DecidableEq

/-- An addNode or addHost declaration (lines 56-61): name, ip option, the
inNamespace option when it is explicitly passed (none when omitted), and
whether the declaration used addHost. -/
structure NodeDecl where
  name : String
  ip : String
  inNamespace : Option Bool
  isHost : Bool
deriving DecidableEq

/-- An addLink declaration (lines 64-71): the two endpoint nodes and the
explicit interface name passed for each side. -/
structure LinkDecl where
  node1 : String
  node2 : String
  intfName1 : String
  intfName2 : String
deriving DecidableEq

/-- Lines 51-52: the two addSwitch calls of FaucetTopo. -/
def faucetTopoSwitches : List SwitchDecl :=
  [⟨"sw1", "OpenFlow13", "1"⟩, ⟨"sw2", "OpenFlow13", "2"⟩]

/-- Lines 56-61: the four addNode calls and the two addHost calls of
FaucetTopo, in source order. -/
def faucetTopoNodeDecls : List NodeDecl :=
  [⟨"faucet", "0.0.0.0", none, false⟩,
   ⟨"dhcp", "10.0.0.254", some true, false⟩,
   ⟨"nat", "10.0.0.1", some true, false⟩,
   ⟨"ids", "0.0.0.0", some true, false⟩,
   ⟨"h1", "0.0.0.0", none, true⟩,
   ⟨"h2", "0.0.0.0", none, true⟩]

/-- Lines 64-71: the eight addLink calls of FaucetTopo, in source order. -/
def faucetTopoLinks : List LinkDecl :=
  [⟨"sw1", "h1", "port-1", "eth0"⟩,
   ⟨"sw1", "h2", "port-2", "eth0"⟩,
   ⟨"sw1", "sw2", "port-3", "eth1"⟩,
   ⟨"sw1", "faucet", "port-4", "eth4"⟩,
   ⟨"sw2", "dhcp", "int2", "dhcp-eth0"⟩,
   ⟨"sw2", "nat", "int3", "nat-eth0"⟩,
   ⟨"sw2", "ids", "int4", "ids-eth0"⟩,
   ⟨"faucet", "sw2", "eth2", "eth0"⟩]

/-- The node that runs the Faucet SDN controller (line 56 and the diagram
at the top of the script). -/
def controllerNodeName : String := "faucet"

/-- The three network-function nodes: DHCP server, NAT gateway and the
intrusion-detection stand-in (lines 57-59 and the diagram). -/
def nfvNodeNames : List String := ["dhcp", "nat", "ids"]

/-- All node names of the declared topology. -/
def topoNodeNames : List String :=
  faucetTopoSwitches.map SwitchDecl.name ++ faucetTopoNodeDecls.map NodeDecl.name

/-- The interface names that the link declarations assign to a given node. -/
def nodeIntfs (node : String) : List String :=
  faucetTopoLinks.flatMap (fun l =>
    (if l.node1 == node then [l.intfName1] else []) ++
      (if l.node2 == node then [l.intfName2] else []))

/-- Externally visible actions of the run function (lines 74-162). -/
inductive Event where
  | netStart : Event
  | swCmd : String → String → Event
  | quietRunCmd : String → Event
  | hostCmd : String → String → Event
  | sleepFor : Nat → Event
  | attachIntf : String → String → Event
  | detachIntf : String → String → Event
  | cliSession : Event
  | linkStop : Nat → Event
  | hostStop : String → Bool → Event
  | hostTerminate : String → Event
  | netStop : Event
deriving DecidableEq

/-- Line 89: the set-controller command issued through sw1. -/
def ctrlAssignSw1 : Event :=
  Event.swCmd "sw1" "ovs-vsctl set-controller sw1 tcp:127.0.0.1:6633"

/-- Line 90: the set-controller command issued through sw2. -/
def ctrlAssignSw2 : Event :=
  Event.swCmd "sw2" "ovs-vsctl set-controller sw2 tcp:127.0.0.1:6633"

/-- Line 93: the polled command of the Faucet service status loop. -/
def faucetStatusPoll : Event := Event.quietRunCmd "service faucet status"

/-- Lines 94-96: the body run on each failed iteration of the Faucet
status loop, which re-issues the service start command. -/
def faucetStatusBody : List Event :=
  [Event.sleepFor 1, Event.quietRunCmd "service faucet start"]

/-- Line 100: the polled command of the switch connection wait. -/
def switchConnectPoll : Event := Event.quietRunCmd "ovs-vsctl show"

/-- Lines 101-102: the body of the switch connection wait only sleeps and
logs a dot; no command is re-issued. -/
def switchConnectBody : List Event := [Event.sleepFor 1]

/-- Line 108: the polled command of the dnsmasq listening check. -/
def dnsmasqPoll : Event := Event.hostCmd "dhcp" "netstat -an | grep 67"

/-- Lines 109-111: the body of the dnsmasq check re-launches the daemon. -/
def dnsmasqBody : List Event :=
  [Event.sleepFor 2, Event.hostCmd "dhcp" "/usr/sbin/dnsmasq"]

/-- Line 117: the polled command of the h1 DHCP lease wait. -/
def h1LeasePoll : Event :=
  Event.hostCmd "h1" "ip addr show eth0 | grep -o 10.0.0.[0-9]"

/-- Lines 118-120: the body of the h1 lease wait re-runs the DHCP client. -/
def h1LeaseBody : List Event :=
  [Event.sleepFor 3, Event.hostCmd "h1" "/sbin/udhcpc -nq -t 3 -i eth0"]

/-- Line 125: the polled command of the h2 DHCP lease wait. -/
def h2LeasePoll : Event :=
  Event.hostCmd "h2" "ip addr show eth0 | grep -o 10.0.0.[0-9]"

/-- Lines 126-128: the body of the h2 lease wait re-runs the DHCP client. -/
def h2LeaseBody : List Event :=
  [Event.sleepFor 3, Event.hostCmd "h2" "/sbin/udhcpc -nq -t 3 -i eth0"]

/-- The five polling loops of run, as pairs of polled command and loop
body, in program order (lines 93-97, 99-103, 106-112, 115-121, 123-129). -/
def provisioningLoops : List (Event × List Event) :=
  [(faucetStatusPoll, faucetStatusBody),
   (switchConnectPoll, switchConnectBody),
   (dnsmasqPoll, dnsmasqBody),
   (h1LeasePoll, h1LeaseBody),
   (h2LeasePoll, h2LeaseBody)]

/-- An event that shells out a command; an initiating action can only be
such an event. -/
def isActionEvent : Event → Bool
  | Event.swCmd _ _ => true
  | Event.quietRunCmd _ => true
  | Event.hostCmd _ _ => true
  | _ => false

/-- A loop body re-issues an initiating action exactly when it contains a
command event. -/
def reissuesAction (body : List Event) : Bool := body.any isActionEvent

/-- One of the condition-poll while loops: each iteration runs the polled
command once, and after every unmet check also runs the body; the argument
is the number of unmet iterations before the condition is first met. -/
def whileLoop (poll : Event) (body : List Event) : Nat → List Event
  | 0 => [poll]
  | n + 1 => poll :: (body ++ whileLoop poll body n)

/-- The six entries of net.hosts at teardown: every non-switch node of the
topology, in the sorted order Mininet stores them; the per-host order is
irrelevant to the claims below. -/
def mininetHosts : List String := ["dhcp", "faucet", "h1", "h2", "ids", "nat"]

/-- Lines 149-162 after the detach: stop each of the 8 links, then stop
(deleting interfaces) and terminate every host, then stop the network. -/
def teardownFixed : List Event :=
  (List.range 8).map Event.linkStop ++
    mininetHosts.flatMap (fun h => [Event.hostStop h true, Event.hostTerminate h]) ++
    [Event.netStop]

/-- Lines 148-162: the teardown sequence, starting with delIntf of the
external interface on the NAT node. -/
def teardownTrace (extInt : String) : List Event :=
  Event.detachIntf "nat" extInt :: teardownFixed

/-- Lines 132-146: NAT setup after the host leases: attach the external
interface to the NAT node, run dhclient (the interface name is hardcoded
as enp0s9 at line 136), set the two loopback aliases, install the
masquerade rule (which does interpolate EXT_INT), enable IP forwarding,
then hand over to the interactive CLI session. -/
def natSetupTail (extInt : String) : List Event :=
  [Event.attachIntf extInt "nat",
   Event.sleepFor 1,
   Event.hostCmd "nat" "/sbin/dhclient enp0s9",
   Event.hostCmd "nat" "/sbin/ifconfig lo:1 1.1.1.1/24",
   Event.hostCmd "nat" "/sbin/ifconfig lo:1 1111::1/64",
   Event.hostCmd "nat" ("/sbin/iptables -t nat -A POSTROUTING -o " ++ extInt ++ " -j MASQUERADE"),
   Event.hostCmd "nat" "/sbin/sysctl -q -w net.ipv4.ip_forward=1",
   Event.cliSession]

/-- The event trace of run (lines 74-162), parameterised by the value of
the EXT_INT constant and by the number of failed iterations of each of the
five polling loops; runs in which some loop never meets its condition have
no finite trace, which is treated by pollRun below. -/
def runTrace (extInt : String) (n1 n2 n3 n4 n5 : Nat) : List Event :=
  [Event.netStart, ctrlAssignSw1, ctrlAssignSw2] ++
    whileLoop faucetStatusPoll faucetStatusBody n1 ++
    whileLoop switchConnectPoll switchConnectBody n2 ++
    whileLoop dnsmasqPoll dnsmasqBody n3 ++
    whileLoop h1LeasePoll h1LeaseBody n4 ++
    whileLoop h2LeasePoll h2LeaseBody n5 ++
    natSetupTail extInt ++
    teardownTrace extInt

/-- Events belonging to the teardown phase: delIntf, link stop, host stop,
host terminate and the overall network stop. -/
def isTeardownEvent : Event → Bool
  | Event.detachIntf _ _ => true
  | Event.linkStop _ => true
  | Event.hostStop _ _ => true
  | Event.hostTerminate _ => true
  | Event.netStop => true
  | _ => false

/-- Events of the controller attachment phase: the two set-controller
commands and the polled commands of the readiness and connection waits. -/
def isCtrlPhaseEvent : Event → Bool
  | Event.swCmd _ c =>
      c == "ovs-vsctl set-controller sw1 tcp:127.0.0.1:6633" ||
        c == "ovs-vsctl set-controller sw2 tcp:127.0.0.1:6633"
  | Event.quietRunCmd c => c == "service faucet status" || c == "ovs-vsctl show"
  | _ => false

/-- The Python substring test (the in operator) on character lists. -/
def containsSubstr (pat : List Char) : List Char → Bool
  | [] => pat.isEmpty
  | c :: rest => pat.isPrefixOf (c :: rest) || containsSubstr pat rest

/-- Line 93 exit test: "(running)" occurs in the service status output. -/
def faucetRunningCond (out : List Char) : Bool :=
  containsSubstr ("(running)".toList) out

/-- Line 100 exit test: "is_connected" occurs in the ovs-vsctl output. -/
def switchConnectedCond (out : List Char) : Bool :=
  containsSubstr ("is_connected".toList) out

/-- Line 108 exit test: "0.0.0.0:67" occurs in the netstat output. -/
def dhcpListeningCond (out : List Char) : Bool :=
  containsSubstr ("0.0.0.0:67".toList) out

/-- Lines 117 and 125 exit test: "10.0.0" occurs in the piped command
output. -/
def hostLeaseCond (out : List Char) : Bool :=
  containsSubstr ("10.0.0".toList) out

/-- The exit conditions of the five polling loops, in program order. -/
def provisioningPollConds : List (List Char → Bool) :=
  [faucetRunningCond, switchConnectedCond, dhcpListeningCond,
   hostLeaseCond, hostLeaseCond]

/-- One condition-poll loop: at iteration s it evaluates the exit condition
on the output obs s of the polled command and stops at the first iteration
whose output meets it; fuel bounds how many iterations are examined, while
the loops of the script itself have no such bound. -/
def pollRun (cond : List Char → Bool) (obs : Nat → List Char) : Nat → Nat → Option Nat
  | _, 0 => none
  | s, fuel + 1 => if cond (obs s) then some s else pollRun cond obs (s + 1) fuel

/-- One attempt of the grep pattern 10.0.0.[0-9] at the start of a
character list: the dots of a grep pattern are single-character wildcards,
so the pattern matches any 8 characters of shape 1, 0, any, 0, any, 0,
any, digit. -/
def matchesLeasePat : List Char → Bool
  | [c1, c2, _, c4, _, c6, _, c8] =>
      c1 == '1' && c2 == '0' && c4 == '0' && c6 == '0' && c8.isDigit
  | _ => false

/-- Fuel-indexed scan of one line that emits each leftmost non-overlapping
match of the pattern, as grep -o does; the fuel bounds the scan length. -/
def grepScanF : Nat → List Char → List (List Char)
  | 0, _ => []
  | _ + 1, [] => []
  | f + 1, c :: rest =>
    if matchesLeasePat ((c :: rest).take 8) then
      (c :: rest).take 8 :: grepScanF f (rest.drop 7)
    else
      grepScanF f rest

/-- Scan of one line with enough fuel to examine every position. -/
def grepScan (l : List Char) : List (List Char) := grepScanF l.length l

/-- Split command output into lines, since grep matches within lines. -/
def splitNL : List Char → List (List Char)
  | [] => [[]]
  | c :: rest =>
    if c = '\n' then [] :: splitNL rest
    else
      match splitNL rest with
      | [] => [[c]]
      | m :: ms => (c :: m) :: ms

/-- Concatenate the matches, each followed by a newline, exactly as grep -o
prints one match per output line. -/
def joinNL : List (List Char) → List Char
  | [] => []
  | m :: ms => m ++ '\n' :: joinNL ms

/-- The output of the pipeline ip addr show eth0 into grep -o 10.0.0.[0-9]
(lines 117 and 125), as a function of the ip addr show output. -/
def leaseGrepOutput (ipOut : List Char) : List Char :=
  joinNL ((splitNL ipOut).flatMap grepScan)

/-- The exit condition of the host DHCP-wait loops as a function of the ip
addr show output: the loop exits when 10.0.0 occurs in the grep output. -/
def dhcpWaitExit (ipOut : List Char) : Bool :=
  hostLeaseCond (leaseGrepOutput ipOut)

/-- The output reports addr as an interface address when "inet addr/"
occurs in it, which is how ip addr show prints an assigned IPv4 address. -/
def reportsAddr (ipOut addr : List Char) : Bool :=
  containsSubstr ("inet ".toList ++ addr ++ ['/']) ipOut

/-- An address lies in the fixed subnet exactly when its dotted form starts
with the prefix 10.0.0 followed by a dot. -/
def inSubnet10 (addr : List Char) : Bool :=
  ("10.0.0.".toList).isPrefixOf addr

/-! Helper lemmas about the substring test and the grep model. -/

theorem containsSubstr_iff (pat : List Char) :
    ∀ s : List Char, containsSubstr pat s = true ↔ pat <:+: s := by
  intro s
  induction s with
  | nil =>
    simp [containsSubstr, List.isEmpty_iff]
  | cons c rest ih =>
    simp [containsSubstr, List.infix_cons_iff, ih]

theorem prefix_stops_before_sep (a : Char) :
    ∀ (pat ys zs : List Char), a ∉ pat → pat <+: ys ++ a :: zs → pat <+: ys := by
  intro pat
  induction pat with
  | nil => intro ys zs _ _; exact List.nil_prefix
  | cons p pt ih =>
    intro ys zs ha h
    cases ys with
    | nil =>
      rw [List.nil_append] at h
      rcases List.cons_prefix_cons.mp h with ⟨rfl, -⟩
      exact absurd (List.mem_cons_self _ _) ha
    | cons y yt =>
      rcases List.cons_prefix_cons.mp h with ⟨rfl, h2⟩
      have ha2 : a ∉ pt := fun hm => ha (List.mem_cons_of_mem _ hm)
      exact List.cons_prefix_cons.mpr ⟨rfl, ih yt zs ha2 h2⟩

theorem infix_split_at_sep (a : Char) :
    ∀ (ys pat zs : List Char), a ∉ pat → pat <:+: ys ++ a :: zs →
      pat <:+: ys ∨ pat <:+: zs := by
  intro ys
  induction ys with
  | nil =>
    intro pat zs ha h
    rw [List.nil_append] at h
    rcases List.infix_cons_iff.mp h with hp | hi
    · cases pat with
      | nil => exact Or.inl List.nil_infix
      | cons p pt =>
        rcases List.cons_prefix_cons.mp hp with ⟨rfl, -⟩
        exact absurd (List.mem_cons_self _ _) ha
    · exact Or.inr hi
  | cons y yt ih =>
    intro pat zs ha h
    rw [List.cons_append] at h
    rcases List.infix_cons_iff.mp h with hp | hi
    · exact Or.inl ( List.IsPrefix.isInfix (prefix_stops_before_sep a pat (y :: yt) zs ha hp))
    · rcases ih pat zs ha hi with h1 | h2
      · exact Or.inl (List.infix_cons h1)
      · exact Or.inr h2

theorem infix_joinNL_mem (pat : List Char) (hnl : '\n' ∉ pat) (hne : pat ≠ []) :
    ∀ ms : List (List Char), pat <:+: joinNL ms → ∃ m ∈ ms, pat <:+: m := by
  intro ms
  induction ms with
  | nil =>
    intro h
    simp only [joinNL] at h
    exact absurd (List.infix_nil.mp h) hne
  | cons m ms ih =>
    intro h
    simp only [joinNL] at h
    rcases infix_split_at_sep '\n' m pat (joinNL ms) hnl h with h1 | h2
    · exact ⟨m, List.mem_cons_self _ _, h1⟩
    · rcases ih h2 with ⟨m2, hm2, hp2⟩
      exact ⟨m2, List.mem_cons_of_mem _ hm2, hp2⟩

theorem grepScanF_mem_sub :
    ∀ (f : Nat) (l m : List Char), m ∈ grepScanF f l → m <:+: l := by
  intro f
  induction f with
  | zero => intro l m hm; simp [grepScanF] at hm
  | succ f ih =>
    intro l m hm
    cases l with
    | nil => simp [grepScanF] at hm
    | cons c rest =>
      by_cases hp : matchesLeasePat ((c :: rest).take 8) = true
      · simp only [grepScanF] at hm
        rw [if_pos hp] at hm
        rcases List.mem_cons.mp hm with rfl | hm2
        · exact List.IsPrefix.isInfix ( List.take_prefix 8 (c :: rest))
        · have h1 := ih (rest.drop 7) m hm2
          have h2 : m <:+: rest :=
            h1.trans ( List.IsSuffix.isInfix (List.drop_suffix 7 rest))
          exact List.infix_cons h2
      · simp only [grepScanF] at hm
        rw [if_neg hp] at hm
        exact List.infix_cons (ih rest m hm)

theorem grepScan_mem_sub (l m : List Char) (h : m ∈ grepScan l) : m <:+: l :=
  grepScanF_mem_sub l.length l m h

theorem grepScanF_fuel_irrel :
    ∀ (f g : Nat) (l : List Char), l.length ≤ f → l.length ≤ g →
      grepScanF f l = grepScanF g l := by
  intro f
  induction f with
  | zero =>
    intro g l hf _
    have hl : l = [] := List.length_eq_zero.mp (Nat.le_zero.mp hf)
    subst hl
    cases g <;> simp [grepScanF]
  | succ f ih =>
    intro g l hf hg
    cases l with
    | nil => cases g <;> simp [grepScanF]
    | cons c rest =>
      cases g with
      | zero => simp at hg
      | succ g2 =>
        have hf2 : rest.length ≤ f := by
          simp [List.length_cons] at hf; omega
        have hg2 : rest.length ≤ g2 := by
          simp [List.length_cons] at hg; omega
        by_cases hp : matchesLeasePat ((c :: rest).take 8) = true
        · simp only [grepScanF]
          rw [if_pos hp, if_pos hp]
          have hd : (rest.drop 7).length ≤ f := by
            simp [List.length_drop]; omega
          have hd2 : (rest.drop 7).length ≤ g2 := by
            simp [List.length_drop]; omega
          rw [ih g2 (rest.drop 7) hd hd2]
        · simp only [grepScanF]
          rw [if_neg hp, if_neg hp]
          exact ih g2 rest hf2 hg2

theorem splitNL_head_pre :
    ∀ l : List Char, ∀ m ms, splitNL l = m :: ms → m <+: l := by
  intro l
  induction l with
  | nil =>
    intro m ms h
    simp only [splitNL] at h
    injection h with h3 _
    subst h3
    exact List.nil_prefix
  | cons c rest ih =>
    intro m ms h
    simp only [splitNL] at h
    split at h
    · injection h with h3 _
      subst h3
      exact List.nil_prefix
    · split at h
      · rename_i hsr
        injection h with h3 _
        subst h3
        exact List.cons_prefix_cons.mpr ⟨rfl, List.nil_prefix⟩
      · rename_i m0 ms0 hsr
        injection h with h3 _
        subst h3
        exact List.cons_prefix_cons.mpr ⟨rfl, ih m0 ms0 hsr⟩

theorem splitNL_mem_sub :
    ∀ l m, m ∈ splitNL l → m <:+: l := by
  intro l
  induction l with
  | nil =>
    intro m hm
    simp only [splitNL] at hm
    rcases List.mem_cons.mp hm with rfl | hm2
    · exact List.nil_infix
    · simp at hm2
  | cons c rest ih =>
    intro m hm
    simp only [splitNL] at hm
    split at hm
    · rcases List.mem_cons.mp hm with rfl | hm2
      · exact List.nil_infix
      · exact List.infix_cons (ih m hm2)
    · split at hm
      · rename_i hsr
        rcases List.mem_cons.mp hm with rfl | hm2
        · exact List.IsPrefix.isInfix
            (List.cons_prefix_cons.mpr ⟨rfl, List.nil_prefix⟩)
        · simp at hm2
      · rename_i m0 ms0 hsr
        rcases List.mem_cons.mp hm with rfl | hm2
        · exact List.IsPrefix.isInfix
            (List.cons_prefix_cons.mpr ⟨rfl, splitNL_head_pre rest m0 ms0 hsr⟩)
        · have hmem : m ∈ splitNL rest := by
            rw [hsr]; exact List.mem_cons_of_mem _ hm2
          exact List.infix_cons (ih m hmem)

/-! Helper lemmas about the trace and the polling loops. -/

theorem filter_whileLoop_none (p : Event → Bool) (poll : Event) (body : List Event)
    (hp : p poll = false) (hb : body.filter p = []) :
    ∀ n, (whileLoop poll body n).filter p = [] := by
  intro n
  induction n with
  | zero => simp [whileLoop, List.filter_cons, hp]
  | succ k ih =>
    simp [whileLoop, List.filter_cons, List.filter_append, hp, hb, ih]

theorem filter_whileLoop_all (p : Event → Bool) (poll : Event) (body : List Event)
    (hp : p poll = true) (hb : body.filter p = []) :
    ∀ n, (whileLoop poll body n).filter p = List.replicate (n + 1) poll := by
  intro n
  induction n with
  | zero => simp [whileLoop, List.filter_cons, hp, List.replicate]
  | succ k ih =>
    simp [whileLoop, List.filter_cons, List.filter_append, hp, hb, ih,
      List.replicate_succ]

theorem pollRun_none_aux (cond : List Char → Bool) (obs : Nat → List Char)
    (h : ∀ k, cond (obs k) = false) :
    ∀ fuel s, pollRun cond obs s fuel = none := by
  intro fuel
  induction fuel with
  | zero => intro s; rfl
  | succ f ih => intro s; simp [pollRun, h s, ih]

theorem pollRun_first_aux (cond : List Char → Bool) (obs : Nat → List Char) :
    ∀ d s fuel, (∀ j, j < d → cond (obs (s + j)) = false) →
      cond (obs (s + d)) = true → d < fuel →
        pollRun cond obs s fuel = some (s + d) := by
  intro d
  induction d with
  | zero =>
    intro s fuel _ ht hf
    cases fuel with
    | zero => exact absurd hf (Nat.not_lt_zero _)
    | succ f =>
      rw [Nat.add_zero] at ht
      simp [pollRun, ht]
  | succ d ih =>
    intro s fuel h0 ht hf
    cases fuel with
    | zero => exact absurd hf (Nat.not_lt_zero _)
    | succ f =>
      have hcs : cond (obs s) = false := by
        have := h0 0 (Nat.succ_pos d)
        simpa using this
      have hrec : pollRun cond obs (s + 1) f = some (s + 1 + d) := by
        apply ih
        · intro j hj
          have := h0 (j + 1) (by omega)
          have e : s + (j + 1) = s + 1 + j := by omega
          rwa [e] at this
        · have e : s + 1 + d = s + (d + 1) := by omega
          rw [e]; exact ht
        · omega
      have e2 : s + 1 + d = s + (d + 1) := by omega
      simp only [pollRun]
      rw [if_neg (by simp [hcs]), hrec]
      exact congrArg some e2

/-! The claims. -/

/-- Claim C3: for every invocation the declared topology contains exactly
2 switches, 1 controller node, 3 network-function nodes, 2 hosts and 8
point-to-point links, each link with explicit (nonempty) interface names
on both ends. -/
theorem faucetTopo_counts :
    faucetTopoSwitches.length = 2 ∧
    (faucetTopoNodeDecls.filter (fun n => !n.isHost && n.name == controllerNodeName)).length = 1 ∧
    (faucetTopoNodeDecls.filter (fun n => !n.isHost && nfvNodeNames.contains n.name)).length = 3 ∧
    (faucetTopoNodeDecls.filter (fun n => n.isHost)).length = 2 ∧
    faucetTopoLinks.length = 8 ∧
    faucetTopoLinks.all (fun l => !(l.intfName1 == "") && !(l.intfName2 == "")) = true := by
  decide

/-- Claim C8: within each node of the declared topology, the interface
names assigned to that node by the eight link declarations are pairwise
distinct. -/
theorem node_intf_names_nodup :
    ∀ n ∈ topoNodeNames, (nodeIntfs n).Nodup := by decide

theorem node_intf_names_nodup_witness :
    "sw2" ∈ topoNodeNames ∧ (nodeIntfs "sw2").Nodup :=
  ⟨by decide, node_intf_names_nodup "sw2" (by decide)⟩

/-- Claim C9: the two declared switches carry distinct fixed datapath
identifiers and both are restricted to the single controller protocol
version OpenFlow13 (a one-element protocols option, with no
comma-separated alternatives). -/
theorem switch_dpid_protocol_pinning :
    faucetTopoSwitches.map SwitchDecl.dpid = ["1", "2"] ∧
    (faucetTopoSwitches.map SwitchDecl.dpid).Nodup ∧
    faucetTopoSwitches.all (fun s => s.protocols == "OpenFlow13") = true ∧
    ("OpenFlow13".toList.contains ',') = false := by
  decide

/-- Claim C10: exactly two declarations carry a non-placeholder static IP,
namely the DHCP node with 10.0.0.254 and the NAT node with 10.0.0.1; the
controller node, the IDS node and both hosts are declared with 0.0.0.0;
and the three network-function nodes are exactly the non-switch
declarations passing the inNamespace flag. -/
theorem node_ip_namespace_decls :
    (faucetTopoNodeDecls.filter (fun n => !(n.ip == "0.0.0.0"))).map NodeDecl.name
        = ["dhcp", "nat"] ∧
    (faucetTopoNodeDecls.filter (fun n => !(n.ip == "0.0.0.0"))).map NodeDecl.ip
        = ["10.0.0.254", "10.0.0.1"] ∧
    (faucetTopoNodeDecls.filter (fun n => n.ip == "0.0.0.0")).map NodeDecl.name
        = ["faucet", "ids", "h1", "h2"] ∧
    (faucetTopoNodeDecls.filter (fun n => n.inNamespace == some true)).map NodeDecl.name
        = nfvNodeNames := by
  decide

/-- Claim C2 counterexample: it is not true that every polling step of the
provisioning sequence re-issues an initiating action on each unmet
iteration; the switch-to-controller connection wait (lines 99-103) has a
body that only sleeps. -/
theorem loop_reissue_counterexample :
    ¬ ∀ p ∈ provisioningLoops, reissuesAction p.2 = true := by decide

/-- Claim C2 as amended: of the five polling steps, the controller-service
check, the DHCP-server listening check and the two host DHCP-lease waits
re-issue their initiating action on every unmet iteration, while the
switch-to-controller connection wait issues no action and only sleeps. -/
theorem loop_reissue_pattern :
    provisioningLoops.map (fun p => reissuesAction p.2)
      = [true, false, true, true, true] := by
  decide

/-- Claim C7: in every execution, both set-controller assignments come
before every iteration of the controller-readiness poll and of the
switch-connection poll: the subsequence of controller-phase events of the
trace is the two assignments followed by the status polls followed by the
connection polls. -/
theorem controller_assignment_precedes_polls (extInt : String) (n1 n2 n3 n4 n5 : Nat) :
    (runTrace extInt n1 n2 n3 n4 n5).filter isCtrlPhaseEvent =
      ctrlAssignSw1 :: ctrlAssignSw2 ::
        (List.replicate (n1 + 1) faucetStatusPoll ++
          List.replicate (n2 + 1) switchConnectPoll) := by
  have h1 := filter_whileLoop_all isCtrlPhaseEvent faucetStatusPoll faucetStatusBody
    (by decide) (by decide) n1
  have h2 := filter_whileLoop_all isCtrlPhaseEvent switchConnectPoll switchConnectBody
    (by decide) (by decide) n2
  have h3 := filter_whileLoop_none isCtrlPhaseEvent dnsmasqPoll dnsmasqBody
    (by decide) (by decide) n3
  have h4 := filter_whileLoop_none isCtrlPhaseEvent h1LeasePoll h1LeaseBody
    (by decide) (by decide) n4
  have h5 := filter_whileLoop_none isCtrlPhaseEvent h2LeasePoll h2LeaseBody
    (by decide) (by decide) n5
  have ha : isCtrlPhaseEvent Event.netStart = false := by decide
  have hb : isCtrlPhaseEvent ctrlAssignSw1 = true := by decide
  have hb2 : isCtrlPhaseEvent ctrlAssignSw2 = true := by decide
  have hNat : (natSetupTail extInt).filter isCtrlPhaseEvent = [] := rfl
  have hTd : (teardownTrace extInt).filter isCtrlPhaseEvent = [] := rfl
  simp [runTrace, List.filter_append, List.filter_cons, ha, hb, hb2,
    h1, h2, h3, h4, h5, hNat, hTd]

/-- Claim C6: in every execution that reaches teardown, the teardown-phase
events of the trace are exactly: the detach of the external interface from
the NAT node, then the 8 link stops, then the stop (with interface
deletion) and forced termination of every host, then the overall network
stop; and the network stop is the final event of the whole trace. -/
theorem teardown_order (extInt : String) (n1 n2 n3 n4 n5 : Nat) :
    (runTrace extInt n1 n2 n3 n4 n5).filter isTeardownEvent = teardownTrace extInt ∧
    ∃ p, runTrace extInt n1 n2 n3 n4 n5 = p ++ [Event.netStop] := by
  constructor
  · have h1 := filter_whileLoop_none isTeardownEvent faucetStatusPoll faucetStatusBody
      (by decide) (by decide) n1
    have h2 := filter_whileLoop_none isTeardownEvent switchConnectPoll switchConnectBody
      (by decide) (by decide) n2
    have h3 := filter_whileLoop_none isTeardownEvent dnsmasqPoll dnsmasqBody
      (by decide) (by decide) n3
    have h4 := filter_whileLoop_none isTeardownEvent h1LeasePoll h1LeaseBody
      (by decide) (by decide) n4
    have h5 := filter_whileLoop_none isTeardownEvent h2LeasePoll h2LeaseBody
      (by decide) (by decide) n5
    have ha : isTeardownEvent Event.netStart = false := by decide
    have hb : isTeardownEvent ctrlAssignSw1 = false := by decide
    have hb2 : isTeardownEvent ctrlAssignSw2 = false := by decide
    have hNat : (natSetupTail extInt).filter isTeardownEvent = [] := rfl
    have hTd : (teardownTrace extInt).filter isTeardownEvent = teardownTrace extInt := rfl
    simp [runTrace, List.filter_append, List.filter_cons, ha, hb, hb2,
      h1, h2, h3, h4, h5, hNat, hTd]
  · refine ⟨[Event.netStart, ctrlAssignSw1, ctrlAssignSw2] ++
      whileLoop faucetStatusPoll faucetStatusBody n1 ++
      whileLoop switchConnectPoll switchConnectBody n2 ++
      whileLoop dnsmasqPoll dnsmasqBody n3 ++
      whileLoop h1LeasePoll h1LeaseBody n4 ++
      whileLoop h2LeasePoll h2LeaseBody n5 ++
      natSetupTail extInt ++
      (Event.detachIntf "nat" extInt :: ((List.range 8).map Event.linkStop ++
        mininetHosts.flatMap (fun h => [Event.hostStop h true, Event.hostTerminate h]))), ?_⟩
    simp [runTrace, teardownTrace, teardownFixed, List.append_assoc]

/-- Claim C5 (code bug witness): with EXT_INT set to the value eth9, the
run attaches eth9 to the NAT node (event index 8) but then issues the DHCP
client against the literal interface name enp0s9 (event index 10), because
line 136 hardcodes the name instead of interpolating the constant; the two
coincide only for the default constant value. -/
theorem run_dhclient_interface_hardcoded :
    (runTrace "eth9" 0 0 0 0 0)[8]? = some (Event.attachIntf "eth9" "nat") ∧
    (runTrace "eth9" 0 0 0 0 0)[10]? = some (Event.hostCmd "nat" "/sbin/dhclient enp0s9") ∧
    "/sbin/dhclient enp0s9" ≠ "/sbin/dhclient " ++ "eth9" ∧
    "/sbin/dhclient enp0s9" = "/sbin/dhclient " ++ EXT_INT := by
  decide

/-- Claim C4: every polling loop of the provisioning sequence is
unbounded: for observations whose marker never appears the loop never
returns within any number of iterations, and conversely it stops exactly
at the first iteration whose observation meets its exit condition. -/
theorem pollRun_unbounded_exit_first (cond : List Char → Bool)
    (_hc : cond ∈ provisioningPollConds) (obs : Nat → List Char) :
    ((∀ k, cond (obs k) = false) → ∀ s fuel, pollRun cond obs s fuel = none) ∧
    (∀ k, cond (obs k) = true → (∀ j, j < k → cond (obs j) = false) →
      ∀ fuel, k < fuel → pollRun cond obs 0 fuel = some k) := by
  refine ⟨fun h s fuel => pollRun_none_aux cond obs h fuel s, ?_⟩
  intro k ht h0 fuel hf
  have := pollRun_first_aux cond obs k 0 fuel
    (fun j hj => by simpa using h0 j hj) (by simpa using ht) hf
  simpa using this

theorem pollRun_unbounded_exit_first_witness :
    faucetRunningCond ∈ provisioningPollConds ∧
    pollRun faucetRunningCond (fun _ => "x".toList) 0 5 = none :=
  ⟨by simp [provisioningPollConds],
   (pollRun_unbounded_exit_first faucetRunningCond (by simp [provisioningPollConds])
      (fun _ => "x".toList)).1 (fun _ => by decide) 0 5⟩

/-- Claim C1 counterexample: the DHCP-wait exit condition is also
satisfied by an output reporting the address 110.0.0.5, which does not lie
in the 10.0.0 subnet: the grep pattern dots are wildcards and the final
test is substring containment, so the loop can terminate on an unrelated
address. -/
theorem dhcpWait_exits_on_unrelated_address :
    ¬ ∀ addr ipOut : List Char,
        reportsAddr ipOut addr = true → inSubnet10 addr = false →
          dhcpWaitExit ipOut = false := by
  intro h
  have h2 := h ("110.0.0.5".toList) ("inet 110.0.0.5/8".toList)
    (by decide) (by decide)
  exact absurd h2 (by decide)

/-- Claim C1 as amended: the DHCP-wait loop exits only when the command
output contains the substring 10.0.0 somewhere, not necessarily as the
subnet prefix of the reported address: whenever the exit condition holds,
the ip addr show output contains 10.0.0 as a substring. -/
theorem dhcpWait_exit_requires_marker (ipOut : List Char)
    (h : dhcpWaitExit ipOut = true) :
    containsSubstr ("10.0.0".toList) ipOut = true := by
  have h0 : containsSubstr ("10.0.0".toList) (leaseGrepOutput ipOut) = true := h
  have h1 : ("10.0.0".toList) <:+: joinNL ((splitNL ipOut).flatMap grepScan) :=
    (containsSubstr_iff _ _).mp h0
  rcases infix_joinNL_mem _ (by decide) (by decide) _ h1 with ⟨m, hm, hpm⟩
  rcases List.mem_flatMap.mp hm with ⟨line, hline, hmline⟩
  have hml : m <:+: line := grepScan_mem_sub line m hmline
  have hlo : line <:+: ipOut := splitNL_mem_sub ipOut line hline
  exact (containsSubstr_iff _ _).mpr (hpm.trans (hml.trans hlo))

theorem dhcpWait_exit_requires_marker_witness :
    dhcpWaitExit ("inet 10.0.0.5/24".toList) = true ∧
    containsSubstr ("10.0.0".toList) ("inet 10.0.0.5/24".toList) = true :=
  ⟨by decide, dhcpWait_exit_requires_marker _ (by decide)⟩
